import Mathlib

/-!
Shallow embedding of the harmonic-analysis engine of the musicsoftware
repository (src/MusicTypes.h, src/MusicTheoryEngine.cpp, src/ChordAnalyzer.cpp),
together with theorems settling the frozen claims about it.

Modelling conventions:
* MIDI note numbers are `Nat` (the program only ever feeds values 0..127).
* C++ `int` arithmetic that can go negative (the interval computation in
  `ChordAnalyzer::findBestChordInterpretation`) is modelled on `Int` with
  `Int.tmod`, the C-style truncated remainder, exactly as the source writes it.
* `QString`/`std::string` values are Lean `String`s.
* `std::map<std::string, std::vector<int>>` iterates its entries in strictly
  increasing key order (byte-wise lexicographic order of the UTF-8 encoded
  keys, which for valid UTF-8 coincides with code-point lexicographic order,
  i.e. with the `<` order on `List Char`).  `chordPatterns` below therefore
  lists the entries of `MusicTheoryEngine::initializeChordPatterns` in that
  sorted key order; `chordPatterns_keys_sorted` (inside the C3 theorem)
  records the sortedness.  The flat-five key in the source is the byte
  sequence 37 E2 99 AD C2 AD C2 AD 35, i.e. the five code points
  7, U+266D, U+00AD, U+00AD, 5 (two invisible soft hyphens).
-/

namespace Music

/-- Key signature record, from `MusicTypes::KeySignature` (MusicTypes.h).
`sharps` and `flats` hold pitch classes spelled sharp resp. flat. -/
structure KeySignature where
  name : String
  sharps : List Nat
  flats : List Nat
  tonic : Nat
  isMajor : Bool

/-- Chord analysis result record, from `MusicTypes::ChordAnalysis`
(MusicTypes.h).  Fields the C++ code leaves untouched on some path keep the
default value a default-constructed `QString`/`std::vector` has (empty);
the `int` fields default to 0 here (the C++ code never reads them before
assigning on the paths the claims are about). -/
structure ChordAnalysis where
  chordName : String := ""
  romanNumeral : String := ""
  functionName : String := ""
  isNonDiatonic : Bool := false
  isSecondaryDominant : Bool := false
  secondaryTarget : String := ""
  inversionFigure : String := ""
  accidentalNotes : List Nat := []
  bassNote : Nat := 0
  rootNote : Nat := 0

/-- The 30-entry key signature table of
`MusicTheoryEngine::initializeKeySignatures`. -/
def keySignatures : List KeySignature := [
  ⟨"C Major", [], [], 0, true⟩,
  ⟨"G Major", [6], [], 7, true⟩,
  ⟨"D Major", [6, 1], [], 2, true⟩,
  ⟨"A Major", [6, 1, 8], [], 9, true⟩,
  ⟨"E Major", [6, 1, 8, 3], [], 4, true⟩,
  ⟨"B Major", [6, 1, 8, 3, 10], [], 11, true⟩,
  ⟨"F# Major", [6, 1, 8, 3, 10, 5], [], 6, true⟩,
  ⟨"C# Major", [0, 6, 1, 8, 3, 10, 5], [], 1, true⟩,
  ⟨"F Major", [], [10], 5, true⟩,
  ⟨"B♭ Major", [], [10, 3], 10, true⟩,
  ⟨"E♭ Major", [], [10, 3, 8], 3, true⟩,
  ⟨"A♭ Major", [], [10, 3, 8, 1], 8, true⟩,
  ⟨"D♭ Major", [], [10, 3, 8, 1, 6], 1, true⟩,
  ⟨"G♭ Major", [], [10, 3, 8, 1, 6, 11], 6, true⟩,
  ⟨"C♭ Major", [], [0, 10, 3, 8, 1, 6, 11], 11, true⟩,
  ⟨"A minor", [], [], 9, false⟩,
  ⟨"E minor", [6], [], 4, false⟩,
  ⟨"B minor", [6, 1], [], 11, false⟩,
  ⟨"F# minor", [6, 1, 8], [], 6, false⟩,
  ⟨"C# minor", [6, 1, 8, 3], [], 1, false⟩,
  ⟨"G# minor", [6, 1, 8, 3, 10], [], 8, false⟩,
  ⟨"D# minor", [6, 1, 8, 3, 10, 5], [], 3, false⟩,
  ⟨"A# minor", [0, 6, 1, 8, 3, 10, 5], [], 10, false⟩,
  ⟨"D minor", [], [10], 2, false⟩,
  ⟨"G minor", [], [10, 3], 7, false⟩,
  ⟨"C minor", [], [10, 3, 8], 0, false⟩,
  ⟨"F minor", [], [10, 3, 8, 1], 5, false⟩,
  ⟨"B♭ minor", [], [10, 3, 8, 1, 6], 10, false⟩,
  ⟨"E♭ minor", [], [10, 3, 8, 1, 6, 11], 3, false⟩,
  ⟨"A♭ minor", [], [0, 10, 3, 8, 1, 6, 11], 8, false⟩
]

/-- Entry 0 of `keySignatures` (the default key). -/
def cMajorKey : KeySignature := ⟨"C Major", [], [], 0, true⟩

/-- Entry 15 of `keySignatures`. -/
def aMinorKey : KeySignature := ⟨"A minor", [], [], 9, false⟩

/-- The chord pattern library of `MusicTheoryEngine::initializeChordPatterns`,
a `std::map<std::string, std::vector<int>>`, listed in its iteration order:
ascending byte-wise lexicographic order of the keys (see the file header).
The value lists are exactly the initializer lists of the source. -/
def chordPatterns : List (String × List Int) := [
  ("11", [0, 4, 7, 10, 14, 17]),
  ("13", [0, 4, 7, 10, 14, 17, 21]),
  ("6", [0, 4, 7, 9]),
  ("7", [0, 4, 7, 10]),
  ("7#11", [0, 4, 7, 10, 18]),
  ("7#5", [0, 4, 8, 10]),
  ("7#9", [0, 4, 7, 10, 15]),
  ("7sus2", [0, 2, 7, 10]),
  ("7sus4", [0, 5, 7, 10]),
  ("7♭9", [0, 4, 7, 10, 13]),
  ("7♭­­5", [0, 4, 6, 10]),
  ("9", [0, 4, 7, 10, 14]),
  ("add9", [0, 4, 7, 14]),
  ("aug", [0, 4, 8]),
  ("aug7", [0, 4, 8, 10]),
  ("dim", [0, 3, 6]),
  ("dim7", [0, 3, 6, 9]),
  ("m", [0, 3, 7]),
  ("m6", [0, 3, 7, 9]),
  ("m7", [0, 3, 7, 10]),
  ("m9", [0, 3, 7, 10, 14]),
  ("mMaj7", [0, 3, 7, 11]),
  ("maj", [0, 4, 7]),
  ("maj7", [0, 4, 7, 11]),
  ("maj9", [0, 4, 7, 11, 14]),
  ("sus2", [0, 2, 7]),
  ("sus4", [0, 5, 7]),
  ("ø7", [0, 3, 6, 10])
]

/-- Sharp note-name table of `MusicTheoryEngine::midiNoteToNoteNameInKey`
(one 12-entry array in the source, written here as two halves). -/
def sharpNames : List String :=
  ["C", "C#", "D", "D#", "E", "F"] ++ ["F#", "G", "G#", "A", "A#", "B"]

/-- Flat note-name table of `MusicTheoryEngine::midiNoteToNoteNameInKey`. -/
def flatNames : List String :=
  ["C", "D♭", "D", "E♭", "E", "F", "G♭", "G", "A♭", "A", "B♭", "B"]

/-- `MusicTheoryEngine::midiNoteToNoteNameInKey`: pick the sharp spelling when
the pitch class is in the sharp set of the key, else the flat spelling when
it is in the flat set, else default to the sharp spelling; append the octave
number `midiNote / 12 - 1`. -/
def midiNoteToNoteNameInKey (midiNote : Nat) (key : KeySignature) : String :=
  let noteClass := midiNote % 12
  let octave : Int := ((midiNote / 12 : Nat) : Int) - 1
  let noteName :=
    if key.sharps.contains noteClass then sharpNames.getD noteClass ""
    else if key.flats.contains noteClass then flatNames.getD noteClass ""
    else sharpNames.getD noteClass ""
  noteName ++ toString octave

/-- Major scale steps table (semitone offsets from the tonic), used by
`MusicTheoryEngine::findAccidentalNotes` and
`ChordAnalyzer::detectSecondaryDominant`. -/
def majorScaleSteps : List Nat := [0, 2, 4, 5, 7, 9, 11]

/-- Natural minor scale steps table. -/
def minorScaleSteps : List Nat := [0, 2, 3, 5, 7, 8, 10]

/-- The diatonic pitch-class set built inside
`MusicTheoryEngine::findAccidentalNotes` (a `std::set<int>`, modelled as a
list only ever queried for membership).  For minor keys the code additionally
inserts `(tonic + 7) % 12` (its comment reads: also allow major V, raised
7th), which is the pitch class of the dominant, before inserting the natural
minor steps. -/
def diatonicPitchClasses (key : KeySignature) : List Nat :=
  if key.isMajor then
    majorScaleSteps.map (fun s => (key.tonic + s) % 12)
  else
    (key.tonic + 7) % 12 :: minorScaleSteps.map (fun s => (key.tonic + s) % 12)

/-- `MusicTheoryEngine::findAccidentalNotes`: keep, in input order, every
note whose pitch class is outside the diatonic pitch-class set. -/
def findAccidentalNotes (notes : List Nat) (key : KeySignature) : List Nat :=
  notes.filter (fun note => !((diatonicPitchClasses key).contains (note % 12)))

/-- Chromatic-step to scale-degree table for major keys
(`MusicTheoryEngine::getScaleDegree`); -1 means not in the scale. -/
def majorScaleDegrees : List Int := [1, -1, 2, -1, 3, 4, -1, 5, -1, 6, -1, 7]

/-- Chromatic-step to scale-degree table for natural minor keys. -/
def minorScaleDegrees : List Int := [1, -1, 2, 3, -1, 4, -1, 5, 6, -1, 7, -1]

/-- `MusicTheoryEngine::getScaleDegree`.  The C++ code computes
`(noteClass - key.tonic + 12) % 12` in `int` arithmetic; for the tonics that
occur (0..11) and `noteClass` in 0..11 this agrees with the `Nat` expression
used here. -/
def getScaleDegree (noteClass : Nat) (key : KeySignature) : Int :=
  let degree := (noteClass + 12 - key.tonic) % 12
  if key.isMajor then majorScaleDegrees.getD degree (-1)
  else minorScaleDegrees.getD degree (-1)

/-- Function-name table for major keys (`MusicTheoryEngine::getFunctionName`,
index 0 unused). -/
def majorFunctions : List String :=
  ["", "Tonic", "Supertonic", "Mediant", "Subdominant", "Dominant",
   "Submediant", "Leading Tone"]

/-- Function-name table for minor keys (index 0 unused). -/
def minorFunctions : List String :=
  ["", "Tonic", "Supertonic", "Mediant", "Subdominant", "Dominant",
   "Submediant", "Subtonic"]

/-- `MusicTheoryEngine::getFunctionName`. -/
def getFunctionName (scaleDegree : Int) (key : KeySignature) : String :=
  if scaleDegree < 1 ∨ scaleDegree > 7 then "Non-diatonic"
  else if key.isMajor then majorFunctions.getD scaleDegree.toNat ""
  else minorFunctions.getD scaleDegree.toNat ""

/-- `MusicTheoryEngine::isChordDiatonic`: switch on the scale degree of the
root pitch class and compare the quality label against the family expected
at that degree. -/
def isChordDiatonic (rootNoteClass : Nat) (chordQuality : String)
    (key : KeySignature) : Bool :=
  let d := getScaleDegree rootNoteClass key
  if d = -1 then false
  else if key.isMajor then
    if d = 1 ∨ d = 4 ∨ d = 5 then
      decide (chordQuality = "maj" ∨ chordQuality = "7" ∨ chordQuality = "maj7" ∨
        chordQuality = "9" ∨ chordQuality = "6" ∨ chordQuality = "add9")
    else if d = 2 ∨ d = 3 ∨ d = 6 then
      decide (chordQuality = "m" ∨ chordQuality = "m7" ∨ chordQuality = "m9" ∨
        chordQuality = "m6" ∨ chordQuality = "mMaj7")
    else if d = 7 then
      decide (chordQuality = "dim" ∨ chordQuality = "dim7" ∨ chordQuality = "ø7")
    else false
  else
    if d = 1 ∨ d = 4 ∨ d = 5 then
      decide ((chordQuality = "m" ∨ chordQuality = "m7" ∨ chordQuality = "m9" ∨
        chordQuality = "m6" ∨ chordQuality = "mMaj7") ∨
        (d = 5 ∧ (chordQuality = "maj" ∨ chordQuality = "7")))
    else if d = 3 ∨ d = 6 ∨ d = 7 then
      decide (chordQuality = "maj" ∨ chordQuality = "7" ∨ chordQuality = "maj7" ∨
        chordQuality = "9" ∨ chordQuality = "6" ∨ chordQuality = "add9")
    else if d = 2 then
      decide (chordQuality = "dim" ∨ chordQuality = "dim7" ∨ chordQuality = "ø7")
    else false

/-- One interval computation of `ChordAnalyzer::findBestChordInterpretation`:
`interval = (note - rootNote) % 12` with the C truncated remainder, followed
by `if (interval < 0) interval += 12`. -/
def cppInterval (note root : Nat) : Int :=
  let interval := ((note : Int) - (root : Int)).tmod 12
  if interval < 0 then interval + 12 else interval

/-- Ascending sort (`std::sort` on `int` values). -/
def sortAsc (l : List Int) : List Int := l.insertionSort (· ≤ ·)

/-- The sorted reduced-interval list a candidate root produces in
`ChordAnalyzer::findBestChordInterpretation` (one entry per input note,
duplicates preserved: the C++ code pushes into a `std::vector`). -/
def intervalsFor (notes : List Nat) (root : Nat) : List Int :=
  sortAsc (notes.map (fun note => cppInterval note root))

/-- `ChordAnalyzer::matchChordPattern`: scan the library in iteration order;
a pattern matches when its sorted interval list has the same size and
element-wise equal values; return the first matching quality label, or the
empty string. -/
def matchChordPattern (intervals : List Int) : String :=
  match chordPatterns.find? (fun p => decide (sortAsc p.2 = intervals)) with
  | some p => p.1
  | none => ""

/-- The root-candidate loop of `ChordAnalyzer::findBestChordInterpretation`:
try each note of the (ascending) input list as root and keep the first one
whose reduced interval list matches a pattern. -/
def findChordRoot (notes : List Nat) : List Nat → Option (String × Nat)
  | [] => none
  | root :: rest =>
    let quality := matchChordPattern (intervalsFor notes root)
    if quality = "" then findChordRoot notes rest
    else some (quality, root)

/-- Result triple of `ChordAnalyzer::findBestChordInterpretation`
(the C++ out-parameters plus the returned display name). -/
structure BestInterpretation where
  quality : String
  root : Nat
  chordName : String

/-- `ChordAnalyzer::findBestChordInterpretation`: on success the display name
is `name(root) ++ " " ++ quality`, with a slash suffix naming the bass when
the first (lowest) note is not the chosen root; on failure quality is empty
and the root out-parameter is left at `notes[0]`. -/
def findBestChordInterpretation (notes : List Nat) (key : KeySignature) :
    BestInterpretation :=
  match findChordRoot notes notes with
  | some (quality, root) =>
    let rootNoteName := midiNoteToNoteNameInKey root key
    let base := rootNoteName ++ " " ++ quality
    let chordName :=
      if notes.headI ≠ root then
        base ++ "/" ++ midiNoteToNoteNameInKey notes.headI key
      else base
    ⟨quality, root, chordName⟩
  | none => ⟨"", notes.headI, ""⟩

/-- Test of `ChordAnalyzer::calculateInversionFigure` for a quality label
containing a seventh: `chordQuality.find("7") != std::string::npos`. -/
def containsSeven (chordQuality : String) : Bool :=
  chordQuality.toList.contains '7'

/-- `ChordAnalyzer::calculateInversionFigure`.  Root position is detected by
exact equality of the two MIDI note numbers; otherwise the figure is chosen
from the pitch-class interval from root to bass
(`(bassClass - rootClass + 12) % 12` in `int` arithmetic, which for the
0..11 classes equals the `Nat` expression here). -/
def calculateInversionFigure (chordQuality : String) (bassNote rootNote : Nat) :
    String :=
  if bassNote = rootNote then
    if chordQuality = "dim7" then "°⁷"
    else if chordQuality = "ø7" then "ø⁷"
    else if containsSeven chordQuality then "⁷"
    else ""
  else
    let rootClass := rootNote % 12
    let bassClass := bassNote % 12
    let bassInterval := (bassClass + 12 - rootClass) % 12
    if bassInterval = 3 ∨ bassInterval = 4 then
      if containsSeven chordQuality ∨ chordQuality = "dim7" ∨ chordQuality = "ø7"
      then "⁶₅" else "⁶"
    else if bassInterval = 7 ∨ (bassInterval = 6 ∧ chordQuality = "dim") then
      if containsSeven chordQuality ∨ chordQuality = "dim7" ∨ chordQuality = "ø7"
      then "₄³" else "₆₄"
    else if (bassInterval = 10 ∨ bassInterval = 11 ∨ bassInterval = 9) ∧
        (containsSeven chordQuality ∨ chordQuality = "dim7" ∨ chordQuality = "ø7")
    then "₄₂"
    else ""

/-- Roman numeral table of `ChordAnalyzer::detectSecondaryDominant` for major
keys (index 0 unused). -/
def majorRomanNumerals : List String :=
  ["", "I", "ii", "iii", "IV", "V", "vi", "vii°"]

/-- Roman numeral table of `ChordAnalyzer::detectSecondaryDominant` for minor
keys (index 0 unused). -/
def minorRomanNumerals : List String :=
  ["", "i", "ii°", "♭III", "iv", "v", "♭VI", "♭VII"]

/-- The degree loop of `ChordAnalyzer::detectSecondaryDominant`: for each
degree in the supplied list compute the scale pitch class of that degree and
its perfect fifth above; return the numeral of the first degree whose fifth
equals the root pitch class. -/
def secondaryDominantLoop (rootNoteClass : Nat) (key : KeySignature) :
    List Nat → String
  | [] => ""
  | degree :: rest =>
    let scaleNote :=
      if key.isMajor then (key.tonic + majorScaleSteps.getD (degree - 1) 0) % 12
      else (key.tonic + minorScaleSteps.getD (degree - 1) 0) % 12
    let expectedDominant := (scaleNote + 7) % 12
    if rootNoteClass = expectedDominant then
      if key.isMajor then majorRomanNumerals.getD degree ""
      else minorRomanNumerals.getD degree ""
    else secondaryDominantLoop rootNoteClass key rest

/-- `ChordAnalyzer::detectSecondaryDominant`: only maj, 7, 9 and maj7
qualities are eligible; degrees are tested in ascending order 1..7. -/
def detectSecondaryDominant (rootNoteClass : Nat) (chordQuality : String)
    (key : KeySignature) : String :=
  if ¬ (chordQuality = "maj" ∨ chordQuality = "7" ∨ chordQuality = "9" ∨
      chordQuality = "maj7") then ""
  else secondaryDominantLoop rootNoteClass key [1, 2, 3, 4, 5, 6, 7]

/-- `ChordAnalyzer::getRomanNumeralForDiatonicChord`: fixed per-mode tables
with a half-diminished override on major degree 7 and minor degree 2, and a
major-V override on minor degree 5. -/
def getRomanNumeralForDiatonicChord (scaleDegree : Int) (chordQuality : String)
    (key : KeySignature) : String :=
  if scaleDegree < 1 ∨ scaleDegree > 7 then "?"
  else
    let d := scaleDegree.toNat
    if key.isMajor then
      let table := ["", "I", "ii", "iii", "IV", "V", "vi",
        if chordQuality = "ø7" then "vii" else "vii°"]
      table.getD d ""
    else
      let table := ["", "i", if chordQuality = "ø7" then "ii" else "ii°",
        "♭III", "iv", "v", "♭VI", "♭VII"]
      if d = 5 ∧ (chordQuality = "maj" ∨ chordQuality = "7") then "V"
      else table.getD d ""

/-- `ChordAnalyzer::analyzeChord` (the ≥3-note orchestrator). -/
def analyzeChord (notes : List Nat) (key : KeySignature) : ChordAnalysis :=
  let bassNote := notes.headI
  let accidentalNotes := findAccidentalNotes notes key
  let nonDiatonicByAccidental := !accidentalNotes.isEmpty
  let best := findBestChordInterpretation notes key
  if best.quality = "" then
    { chordName := "Cluster (" ++ toString notes.length ++ " notes)"
      romanNumeral := "?"
      functionName := ""
      isNonDiatonic := nonDiatonicByAccidental
      isSecondaryDominant := false
      accidentalNotes := accidentalNotes
      bassNote := bassNote }
  else
    let rootNote := best.root
    let inversionFigure := calculateInversionFigure best.quality bassNote rootNote
    let rootNoteClass := rootNote % 12
    let isDiatonic := isChordDiatonic rootNoteClass best.quality key
    if !isDiatonic || nonDiatonicByAccidental then
      let secondaryTarget := detectSecondaryDominant rootNoteClass best.quality key
      if secondaryTarget ≠ "" then
        { chordName := best.chordName
          romanNumeral := "V" ++ inversionFigure ++ "/" ++ secondaryTarget
          functionName := "Secondary Dominant"
          isNonDiatonic := true
          isSecondaryDominant := true
          secondaryTarget := secondaryTarget
          inversionFigure := inversionFigure
          accidentalNotes := accidentalNotes
          bassNote := bassNote
          rootNote := rootNote }
      else
        let scaleDegree := getScaleDegree rootNoteClass key
        if scaleDegree ≠ -1 then
          { chordName := best.chordName
            romanNumeral := getRomanNumeralForDiatonicChord scaleDegree "" key ++
              inversionFigure
            functionName := "Non-functional"
            isNonDiatonic := true
            isSecondaryDominant := false
            inversionFigure := inversionFigure
            accidentalNotes := accidentalNotes
            bassNote := bassNote
            rootNote := rootNote }
        else
          { chordName := best.chordName
            romanNumeral := "Non-diatonic" ++ inversionFigure
            functionName := "Non-functional"
            isNonDiatonic := true
            isSecondaryDominant := false
            inversionFigure := inversionFigure
            accidentalNotes := accidentalNotes
            bassNote := bassNote
            rootNote := rootNote }
    else
      let scaleDegree := getScaleDegree rootNoteClass key
      if scaleDegree ≠ -1 then
        { chordName := best.chordName
          romanNumeral := getRomanNumeralForDiatonicChord scaleDegree "" key ++
            inversionFigure
          functionName := getFunctionName scaleDegree key
          isNonDiatonic := nonDiatonicByAccidental
          isSecondaryDominant := false
          inversionFigure := inversionFigure
          accidentalNotes := accidentalNotes
          bassNote := bassNote
          rootNote := rootNote }
      else
        { chordName := best.chordName
          romanNumeral := ""
          functionName := ""
          isNonDiatonic := nonDiatonicByAccidental
          isSecondaryDominant := false
          inversionFigure := inversionFigure
          accidentalNotes := accidentalNotes
          bassNote := bassNote
          rootNote := rootNote }

/-- `ChordAnalyzer::analyzeInterval`: the switch on the raw difference
`note2 - note1`. -/
def analyzeInterval (note1 note2 : Nat) (key : KeySignature) : String :=
  let interval : Int := (note2 : Int) - (note1 : Int)
  let rootNote := midiNoteToNoteNameInKey note1 key
  if interval = 1 then rootNote ++ " minor 2nd"
  else if interval = 2 then rootNote ++ " major 2nd"
  else if interval = 3 then rootNote ++ " minor 3rd"
  else if interval = 4 then rootNote ++ " major 3rd"
  else if interval = 5 then rootNote ++ " perfect 4th"
  else if interval = 6 then rootNote ++ " tritone"
  else if interval = 7 then rootNote ++ " perfect 5th"
  else if interval = 8 then rootNote ++ " minor 6th"
  else if interval = 9 then rootNote ++ " major 6th"
  else if interval = 10 then rootNote ++ " minor 7th"
  else if interval = 11 then rootNote ++ " major 7th"
  else if interval = 12 then rootNote ++ " octave"
  else rootNote ++ " +" ++ toString interval ++ " semitones"

/-- `ChordAnalyzer::analyzeNotes`: 0 or 1 notes give the empty string, 2
notes dispatch to `analyzeInterval` on the two sorted notes, 3 or more
dispatch to `analyzeChord` and return its chord name. -/
def analyzeNotes (activeNotes : List Nat) (key : KeySignature) : String :=
  if activeNotes.isEmpty then ""
  else
    let notes := activeNotes.insertionSort (· ≤ ·)
    if notes.length = 1 then ""
    else if notes.length = 2 then
      analyzeInterval (notes.getD 0 0) (notes.getD 1 0) key
    else (analyzeChord notes key).chordName

/-- Interval-label table transcribed from the wording of the specification
(sections 4.6 and 8): the fixed 1..12 names, and the literal
`plus-n-semitones` format for any other difference.  This definition is the
specification side of the refinement claim C9 and is deliberately written
from the words of the spec, to be compared with `analyzeInterval` above. -/
def specIntervalSuffix (d : Int) : String :=
  if d = 1 then " minor 2nd"
  else if d = 2 then " major 2nd"
  else if d = 3 then " minor 3rd"
  else if d = 4 then " major 3rd"
  else if d = 5 then " perfect 4th"
  else if d = 6 then " tritone"
  else if d = 7 then " perfect 5th"
  else if d = 8 then " minor 6th"
  else if d = 9 then " major 6th"
  else if d = 10 then " minor 7th"
  else if d = 11 then " major 7th"
  else if d = 12 then " octave"
  else " +" ++ toString d ++ " semitones"

/-- The extended quality labels whose library patterns contain an offset
greater than 11 (claim C1). -/
def extendedQualities : List String :=
  ["maj9", "add9", "m9", "9", "11", "13", "7♭9", "7#9", "7#11"]

theorem tmod_ofNat12 (a : Nat) :
    ((a : Nat) : Int).tmod 12 = ((a % 12 : Nat) : Int) := by
  have h := Int.ofNat_tmod a 12
  simpa using h.symm

theorem tmod_neg_ofNat (k : Nat) :
    Int.tmod (-(k : Int)) 12 = -(((k % 12 : Nat)) : Int) := by
  cases k with
  | zero => rfl
  | succ m =>
    have h1 : (-(((m + 1 : Nat)) : Int)) = Int.negSucc m := rfl
    rw [h1]
    show -((((m : Int)) + 1) % 12) = -(((m + 1) % 12 : Nat) : Int)
    omega

/-- The conditional of `cppInterval` implements the Euclidean remainder:
the computed interval is the pitch-class difference of the two notes. -/
theorem cppInterval_eq (n r : Nat) :
    cppInterval n r = (((n % 12 + 12 - r % 12) % 12 : Nat) : Int) := by
  unfold cppInterval
  rcases Nat.le_total r n with h | h
  · have hc : (n : Int) - (r : Int) = ((n - r : Nat) : Int) := by
      push_cast [h]; ring
    rw [hc, tmod_ofNat12]
    dsimp only
    split_ifs <;> omega
  · have hc : (n : Int) - (r : Int) = -(((r - n : Nat)) : Int) := by
      push_cast [h]; ring
    rw [hc, tmod_neg_ofNat]
    dsimp only
    split_ifs <;> omega

theorem sortAsc_perm (l : List Int) : (sortAsc l).Perm l :=
  List.perm_insertionSort _ l

theorem mem_sortAsc {x : Int} {l : List Int} : x ∈ sortAsc l ↔ x ∈ l :=
  (sortAsc_perm l).mem_iff

/-- Every entry of a reduced-interval list lies in the pitch-class range. -/
theorem mem_intervalsFor_bounds {x : Int} {notes : List Nat} {root : Nat}
    (hx : x ∈ intervalsFor notes root) : 0 ≤ x ∧ x < 12 := by
  rw [intervalsFor, mem_sortAsc, List.mem_map] at hx
  obtain ⟨n, -, rfl⟩ := hx
  rw [cppInterval_eq]
  constructor
  · exact Int.ofNat_nonneg _
  · have : (n % 12 + 12 - root % 12) % 12 < 12 := Nat.mod_lt _ (by omega)
    omega

/-- A non-empty answer of the matcher names a library pattern whose sorted
interval list is exactly the query. -/
theorem matchChordPattern_spec {intervals : List Int}
    (h : matchChordPattern intervals ≠ "") :
    ∃ p ∈ chordPatterns, p.1 = matchChordPattern intervals ∧
      sortAsc p.2 = intervals := by
  cases hf : chordPatterns.find? (fun p => decide (sortAsc p.2 = intervals)) with
  | none =>
    unfold matchChordPattern at h
    rw [hf] at h
    exact absurd rfl h
  | some p =>
    have hm : matchChordPattern intervals = p.1 := by
      unfold matchChordPattern
      rw [hf]
    have hp := List.find?_some hf
    exact ⟨p, List.mem_of_find?_eq_some hf, hm.symm,
      of_decide_eq_true (show decide (sortAsc p.2 = intervals) = true from hp)⟩

/-- Every sorted library pattern is duplicate-free. -/
theorem patterns_sorted_nodup : ∀ p ∈ chordPatterns, (sortAsc p.2).Nodup := by
  decide

/-- An interval list containing a duplicate matches no library pattern. -/
theorem matchChordPattern_of_dup {intervals : List Int}
    (h : ¬ intervals.Nodup) : matchChordPattern intervals = "" := by
  by_contra hne
  obtain ⟨p, hp, -, hsort⟩ := matchChordPattern_spec hne
  exact h (hsort ▸ patterns_sorted_nodup p hp)

/-- A successful root search returns the matcher output for the found root. -/
theorem findChordRoot_some (notes : List Nat) :
    ∀ (cands : List Nat) (q : String) (r : Nat),
    findChordRoot notes cands = some (q, r) →
    q = matchChordPattern (intervalsFor notes r) := by
  intro cands
  induction cands with
  | nil => intro q r h; simp [findChordRoot] at h
  | cons c cs ih =>
    intro q r h
    simp only [findChordRoot] at h
    split at h
    · exact ih q r h
    · rw [Option.some.injEq, Prod.mk.injEq] at h
      obtain ⟨h1, h2⟩ := h
      subst h2
      exact h1.symm

/-- When every candidate fails the matcher, the root search fails. -/
theorem findChordRoot_eq_none (notes : List Nat) :
    ∀ (cands : List Nat),
    (∀ r ∈ cands, matchChordPattern (intervalsFor notes r) = "") →
    findChordRoot notes cands = none := by
  intro cands
  induction cands with
  | nil => intro _; rfl
  | cons c cs ih =>
    intro h
    simp only [findChordRoot]
    rw [if_pos (h c (List.mem_cons_self c cs))]
    exact ih fun r hr => h r (List.mem_cons_of_mem c hr)

/-- Claim C1: for every list of at least two notes, the chord matcher never
returns an extended quality whose library pattern contains an offset greater
than 11 (maj9, add9, m9, 9, 11, 13, 7♭9, 7#9, 7#11): every computed interval
is reduced to 0..11 before comparison while those patterns keep raw compound
offsets, and a match requires equal size and element-wise equality. -/
theorem extendedQualityNeverMatched (notes : List Nat) (key : KeySignature)
    (_h2 : 2 ≤ notes.length) :
    (findBestChordInterpretation notes key).quality ∉ extendedQualities := by
  intro hmem
  unfold findBestChordInterpretation at hmem
  cases hf : findChordRoot notes notes with
  | none =>
    rw [hf] at hmem
    simp [extendedQualities] at hmem
  | some pr =>
    obtain ⟨q, r⟩ := pr
    rw [hf] at hmem
    dsimp only at hmem
    have hq : q = matchChordPattern (intervalsFor notes r) :=
      findChordRoot_some notes notes q r hf
    have hne : matchChordPattern (intervalsFor notes r) ≠ "" := by
      rw [← hq]
      intro hcon
      subst hcon
      simp [extendedQualities] at hmem
    obtain ⟨p, hp, hp1, hp2⟩ := matchChordPattern_spec hne
    have hbig : ∀ p ∈ chordPatterns, p.1 ∈ extendedQualities →
        ∃ x ∈ sortAsc p.2, (12 : Int) ≤ x := by decide
    have hpx : p.1 ∈ extendedQualities := by rw [hp1, ← hq]; exact hmem
    obtain ⟨x, hx, hx12⟩ := hbig p hp hpx
    rw [hp2] at hx
    exact absurd (mem_intervalsFor_bounds hx).2 (by omega)

/-- Witness for C1 at a concrete chord (a C major triad). -/
theorem extendedQualityNeverMatched_witness :
    (findBestChordInterpretation [60, 64, 67] cMajorKey).quality ∉
      extendedQualities :=
  extendedQualityNeverMatched [60, 64, 67] cMajorKey (by decide)

/-- Claim C2 counterexample: for the major triad with the root doubled an
octave apart, the interval collection from candidate root 60 keeps the
duplicate 0 (the code pushes into a vector, not a set), so no pattern
matches: the chord is reported as a cluster, not as maj as the claim
states. -/
theorem intervalVectorKeepsDuplicates_counterexample :
    ([60, 64, 67, 72] : List Nat).map (fun n => cppInterval n 60) =
      [0, 4, 7, 0] ∧
    (findBestChordInterpretation [60, 64, 67, 72] cMajorKey).quality = "" ∧
    (analyzeChord [60, 64, 67, 72] cMajorKey).chordName = "Cluster (4 notes)" :=
  ⟨by decide, by decide, by decide⟩

/-- Claim C2 amended: the matcher collects the per-note reduced intervals
into a list that preserves duplicates (one entry per input note), so whenever
two input notes share a pitch class no candidate root can match any library
pattern (all patterns are duplicate-free) and the chord is reported as a
cluster with romanNumeral ? and empty functionName. -/
theorem duplicatePitchClassGivesCluster (notes : List Nat) (key : KeySignature)
    (hdup : ¬ (notes.map (fun n => n % 12)).Nodup) :
    (analyzeChord notes key).chordName =
      "Cluster (" ++ toString notes.length ++ " notes)" ∧
    (analyzeChord notes key).romanNumeral = "?" ∧
    (analyzeChord notes key).functionName = "" := by
  have hq : ∀ r, matchChordPattern (intervalsFor notes r) = "" := by
    intro r
    apply matchChordPattern_of_dup
    intro hnd
    apply hdup
    have hmapeq : notes.map (fun n => cppInterval n r) =
        (notes.map (fun n => n % 12)).map
          (fun c => ((((c + 12 - r % 12) % 12 : Nat)) : Int)) := by
      rw [List.map_map]
      exact List.map_congr_left fun n _ => cppInterval_eq n r
    have h2 : ((notes.map (fun n => n % 12)).map
        (fun c => ((((c + 12 - r % 12) % 12 : Nat)) : Int))).Nodup := by
      rw [← hmapeq]
      exact ((sortAsc_perm _).nodup_iff).mp hnd
    exact h2.of_map
  have hroot : findChordRoot notes notes = none :=
    findChordRoot_eq_none notes notes fun r _ => hq r
  have hbest : (findBestChordInterpretation notes key).quality = "" := by
    unfold findBestChordInterpretation
    rw [hroot]
  simp [analyzeChord, hbest]

/-- Witness for the amended C2 at the doubled-root major triad. -/
theorem duplicatePitchClassGivesCluster_witness :
    (analyzeChord [60, 64, 67, 72] cMajorKey).chordName =
      "Cluster (" ++ toString ([60, 64, 67, 72] : List Nat).length ++
        " notes)" ∧
    (analyzeChord [60, 64, 67, 72] cMajorKey).romanNumeral = "?" ∧
    (analyzeChord [60, 64, 67, 72] cMajorKey).functionName = "" :=
  duplicatePitchClassGivesCluster [60, 64, 67, 72] cMajorKey (by decide)

/-- Claim C3 counterexample: the sorted interval set 0,4,8,10 is shared by
the patterns aug7 (defined earlier in the source table) and 7#5 (defined
later); the matcher returns 7#5, not aug7, so library iteration order is not
insertion order of the source table. -/
theorem libraryInsertionOrder_counterexample :
    matchChordPattern [0, 4, 8, 10] = "7#5" ∧
    ("aug7", ([0, 4, 8, 10] : List Int)) ∈ chordPatterns ∧
    sortAsc [0, 4, 8, 10] = [0, 4, 8, 10] ∧
    ("7#5" : String) ≠ "aug7" :=
  ⟨by decide, by decide, by decide, by decide⟩

/-- Claim C3 amended: the library is a std::map, so iteration order is
ascending lexicographic order of the quality labels (as code-point lists),
and a tie among matching patterns resolves to the lexicographically first
label: for 0,4,8,10 that is 7#5, not the insertion-order-first aug7. -/
theorem libraryOrderLexicographic :
    chordPatterns.Pairwise (fun p q => p.1.data < q.1.data) ∧
    matchChordPattern [0, 4, 8, 10] = "7#5" :=
  ⟨by decide, by decide⟩

/-- Claim C4 counterexample: for quality dim7 with bass 72 and root 60 the
pitch classes agree but the function returns the empty string, not the
root-position figure the claim promises. -/
theorem inversionFigureOctaveBass_counterexample :
    calculateInversionFigure "dim7" 72 60 = "" ∧
    (72 : Nat) % 12 = 60 % 12 ∧ (72 : Nat) ≠ 60 ∧
    ("" : String) ≠ "°⁷" :=
  ⟨by decide, by decide, by decide, by decide⟩

/-- Claim C4 amended: the root-position figures are produced only when
bassNote and rootNote are equal as MIDI note numbers; whenever the two
numbers differ while their pitch classes agree, the bass interval computes
to 0, which matches no inversion branch, and the figure is the empty
string for every quality. -/
theorem inversionFigureRequiresExactRootPosition (chordQuality : String)
    (bassNote rootNote : Nat) (hpc : bassNote % 12 = rootNote % 12)
    (hne : bassNote ≠ rootNote) :
    calculateInversionFigure chordQuality bassNote rootNote = "" := by
  unfold calculateInversionFigure
  rw [if_neg hne]
  have h0 : (bassNote % 12 + 12 - rootNote % 12) % 12 = 0 := by omega
  dsimp only
  rw [h0]
  simp

/-- Witness for the amended C4 at a maj7 chord with the bass a pitch-class
copy of the root an octave up. -/
theorem inversionFigureRequiresExactRootPosition_witness :
    calculateInversionFigure "maj7" 76 64 = "" :=
  inversionFigureRequiresExactRootPosition "maj7" 76 64 (by decide) (by decide)

/-- Claim C5: a secondary-dominant target is detected only for qualities
maj, 7, 9 and maj7, and for key C Major with a maj chord rooted at pitch
class 9 the detector answers ii while the orchestrator produces
secondaryTarget ii, romanNumeral V/ii (root position) and functionName
Secondary Dominant. -/
theorem secondaryDominantQualityGate (rootNoteClass : Nat)
    (chordQuality : String) (key : KeySignature)
    (h : detectSecondaryDominant rootNoteClass chordQuality key ≠ "") :
    (chordQuality = "maj" ∨ chordQuality = "7" ∨ chordQuality = "9" ∨
      chordQuality = "maj7") ∧
    detectSecondaryDominant 9 "maj" cMajorKey = "ii" ∧
    (analyzeChord [69, 73, 76] cMajorKey).secondaryTarget = "ii" ∧
    (analyzeChord [69, 73, 76] cMajorKey).romanNumeral = "V/ii" ∧
    (analyzeChord [69, 73, 76] cMajorKey).functionName =
      "Secondary Dominant" := by
  refine ⟨?_, by decide, by decide, by decide, by decide⟩
  by_contra hq
  apply h
  unfold detectSecondaryDominant
  rw [if_pos hq]

/-- Witness for C5 at quality maj and root pitch class 9 in C Major. -/
theorem secondaryDominantQualityGate_witness :
    (("maj" : String) = "maj" ∨ ("maj" : String) = "7" ∨
      ("maj" : String) = "9" ∨ ("maj" : String) = "maj7") ∧
    detectSecondaryDominant 9 "maj" cMajorKey = "ii" ∧
    (analyzeChord [69, 73, 76] cMajorKey).secondaryTarget = "ii" ∧
    (analyzeChord [69, 73, 76] cMajorKey).romanNumeral = "V/ii" ∧
    (analyzeChord [69, 73, 76] cMajorKey).functionName =
      "Secondary Dominant" :=
  secondaryDominantQualityGate 9 "maj" cMajorKey (by decide)

/-- Claim C6, code-bug evidence: in a minor key the raised seventh degree is
returned as an accidental, contrary to the claim (and to the source comment,
which says the insertion allows the raised 7th): the code inserts the
dominant pitch class (tonic+7) mod 12, already a natural-minor member,
instead of (tonic+11) mod 12.  Evaluated at key A minor and note 68 (G#4,
pitch class 8 = (9+11) mod 12). -/
theorem raisedSeventhFlaggedAsAccidental :
    findAccidentalNotes [68] aMinorKey = [68] ∧
    (68 : Nat) % 12 = (aMinorKey.tonic + 11) % 12 ∧
    (diatonicPitchClasses aMinorKey).contains ((aMinorKey.tonic + 7) % 12) =
      true :=
  ⟨by decide, by decide, by decide⟩

/-- Claim C7: in every minor key, a root-position major dominant triad (pitch
classes tonic+7, tonic+11, tonic+2, lowest note on tonic+7) is analyzed as
non-diatonic and as the secondary dominant of degree 1: secondaryTarget i,
romanNumeral V/i, functionName Secondary Dominant — never as the diatonic
dominant V, because the raised leading tone is flagged as an accidental and
degree 1 is tested first. -/
theorem minorKeyMajorDominantIsSecondaryDominant (key : KeySignature)
    (n0 n1 n2 : Nat) (hminor : key.isMajor = false) (ht : key.tonic < 12)
    (_h01 : n0 < n1) (_h12 : n1 < n2)
    (h0 : n0 % 12 = (key.tonic + 7) % 12)
    (hrest :
      (n1 % 12 = (key.tonic + 11) % 12 ∧ n2 % 12 = (key.tonic + 2) % 12) ∨
      (n1 % 12 = (key.tonic + 2) % 12 ∧ n2 % 12 = (key.tonic + 11) % 12)) :
    (analyzeChord [n0, n1, n2] key).isNonDiatonic = true ∧
    (analyzeChord [n0, n1, n2] key).isSecondaryDominant = true ∧
    (analyzeChord [n0, n1, n2] key).secondaryTarget = "i" ∧
    (analyzeChord [n0, n1, n2] key).romanNumeral = "V/i" ∧
    (analyzeChord [n0, n1, n2] key).functionName = "Secondary Dominant" := by
  have hi0 : cppInterval n0 n0 = 0 := by rw [cppInterval_eq]; omega
  have hiv : intervalsFor [n0, n1, n2] n0 = [0, 4, 7] := by
    rcases hrest with ⟨ha, hb⟩ | ⟨ha, hb⟩
    · have e1 : cppInterval n1 n0 = 4 := by rw [cppInterval_eq]; omega
      have e2 : cppInterval n2 n0 = 7 := by rw [cppInterval_eq]; omega
      simp only [intervalsFor, List.map_cons, List.map_nil, hi0, e1, e2]
      decide
    · have e1 : cppInterval n1 n0 = 7 := by rw [cppInterval_eq]; omega
      have e2 : cppInterval n2 n0 = 4 := by rw [cppInterval_eq]; omega
      simp only [intervalsFor, List.map_cons, List.map_nil, hi0, e1, e2]
      decide
  have hm : matchChordPattern (intervalsFor [n0, n1, n2] n0) = "maj" := by
    rw [hiv]; decide
  have hroot : findChordRoot [n0, n1, n2] [n0, n1, n2] = some ("maj", n0) := by
    simp [findChordRoot, hm]
  have hq : (findBestChordInterpretation [n0, n1, n2] key).quality = "maj" := by
    unfold findBestChordInterpretation
    rw [hroot]
  have hr : (findBestChordInterpretation [n0, n1, n2] key).root = n0 := by
    unfold findBestChordInterpretation
    rw [hroot]
  have hnotin : ((key.tonic + 11) % 12) ∉ diatonicPitchClasses key := by
    simp only [diatonicPitchClasses, hminor, Bool.false_eq_true, if_false,
      minorScaleSteps, List.map_cons, List.map_nil, List.mem_cons,
      List.not_mem_nil, or_false]
    omega
  have hacc : (findAccidentalNotes [n0, n1, n2] key).isEmpty = false := by
    have hne : findAccidentalNotes [n0, n1, n2] key ≠ [] := by
      unfold findAccidentalNotes
      rw [Ne, List.filter_eq_nil_iff]
      intro hall
      rcases hrest with ⟨ha, -⟩ | ⟨-, ha⟩
      · have := hall n1 (by simp)
        rw [ha] at this
        simp [hnotin] at this
      · have := hall n2 (by simp)
        rw [ha] at this
        simp [hnotin] at this
    cases hcase : (findAccidentalNotes [n0, n1, n2] key).isEmpty with
    | false => rfl
    | true => exact absurd (List.isEmpty_iff.mp hcase) hne
  have hdet : detectSecondaryDominant (n0 % 12) "maj" key = "i" := by
    have hgate : ¬¬(("maj" : String) = "maj" ∨ ("maj" : String) = "7" ∨
        ("maj" : String) = "9" ∨ ("maj" : String) = "maj7") := by simp
    unfold detectSecondaryDominant
    rw [if_neg hgate]
    unfold secondaryDominantLoop
    simp only [hminor, Bool.false_eq_true, if_false]
    split_ifs with hc
    · rfl
    · exfalso
      apply hc
      simp only [minorScaleSteps]
      norm_num
      omega
  have hfig : calculateInversionFigure "maj" n0 n0 = "" := by
    unfold calculateInversionFigure
    rw [if_pos rfl]
    decide
  have hbass : ([n0, n1, n2] : List Nat).headI = n0 := rfl
  simp only [analyzeChord, hbass, hq, hr, hacc, Bool.not_false, Bool.or_true,
    if_true, hdet, hfig,
    if_neg (show ¬("maj" : String) = "" by decide),
    if_pos (show ("i" : String) ≠ "" by decide)]
  refine ⟨trivial, trivial, trivial, ?_, trivial⟩
  decide

/-- Witness for C7 in A minor: E major in root position (E4, G#4, B4). -/
theorem minorKeyMajorDominant_witness :
    (analyzeChord [64, 68, 71] aMinorKey).isNonDiatonic = true ∧
    (analyzeChord [64, 68, 71] aMinorKey).isSecondaryDominant = true ∧
    (analyzeChord [64, 68, 71] aMinorKey).secondaryTarget = "i" ∧
    (analyzeChord [64, 68, 71] aMinorKey).romanNumeral = "V/i" ∧
    (analyzeChord [64, 68, 71] aMinorKey).functionName = "Secondary Dominant" :=
  minorKeyMajorDominantIsSecondaryDominant aMinorKey 64 68 71 rfl (by decide)
    (by decide) (by decide) (by decide) (Or.inl ⟨by decide, by decide⟩)

/-- Claim C8: the orchestrator invokes the Roman-numeral generator with an
empty quality label, so its quality-sensitive overrides never fire: the
diatonic root-position half-diminished seventh on degree 7 of C Major
(B4, D5, F5, A5) gets base numeral vii° and full romanNumeral vii°ø⁷, even
though the generator would spell degree 7 as vii if it were handed the ø7
quality. -/
theorem emptyQualityRomanNumeral :
    (analyzeChord [71, 74, 77, 81] cMajorKey).romanNumeral = "vii°ø⁷" ∧
    (analyzeChord [71, 74, 77, 81] cMajorKey).functionName = "Leading Tone" ∧
    getRomanNumeralForDiatonicChord 7 "" cMajorKey = "vii°" ∧
    getRomanNumeralForDiatonicChord 7 "ø7" cMajorKey = "vii" :=
  ⟨by decide, by decide, by decide, by decide⟩

/-- Distributing a common prefix over the interval-label table: the switch
of `analyzeInterval` with the root name prepended to every arm equals the
root name prepended to `specIntervalSuffix`. -/
theorem append_specIntervalSuffix (root : String) (d : Int) :
    (if d = 1 then root ++ " minor 2nd"
     else if d = 2 then root ++ " major 2nd"
     else if d = 3 then root ++ " minor 3rd"
     else if d = 4 then root ++ " major 3rd"
     else if d = 5 then root ++ " perfect 4th"
     else if d = 6 then root ++ " tritone"
     else if d = 7 then root ++ " perfect 5th"
     else if d = 8 then root ++ " minor 6th"
     else if d = 9 then root ++ " major 6th"
     else if d = 10 then root ++ " minor 7th"
     else if d = 11 then root ++ " major 7th"
     else if d = 12 then root ++ " octave"
     else root ++ " +" ++ toString d ++ " semitones") =
    root ++ specIntervalSuffix d := by
  delta specIntervalSuffix
  simp only [apply_ite (fun s => root ++ s), String.append_assoc]

/-- The source switch agrees with the specification label table. -/
theorem analyzeInterval_eq_spec (a b : Nat) (key : KeySignature) :
    analyzeInterval a b key =
      midiNoteToNoteNameInKey a key ++
        specIntervalSuffix ((b : Int) - (a : Int)) := by
  rw [← append_specIntervalSuffix]
  rfl

/-- Beyond 12 semitones the table formats the literal difference. -/
theorem specIntervalSuffix_default (d : Int) (h12 : 12 < d) :
    specIntervalSuffix d = " +" ++ toString d ++ " semitones" := by
  delta specIntervalSuffix
  rw [if_neg (by omega : ¬ d = 1), if_neg (by omega : ¬ d = 2),
    if_neg (by omega : ¬ d = 3), if_neg (by omega : ¬ d = 4),
    if_neg (by omega : ¬ d = 5), if_neg (by omega : ¬ d = 6),
    if_neg (by omega : ¬ d = 7), if_neg (by omega : ¬ d = 8),
    if_neg (by omega : ¬ d = 9), if_neg (by omega : ¬ d = 10),
    if_neg (by omega : ¬ d = 11), if_neg (by omega : ¬ d = 12)]

/-- Claim C9: for a two-note input with a < b, analysis returns the display
name of a followed by the fixed interval label for the raw difference b - a
(1..12), and the literal plus-n-semitones format beyond 12; the difference
is never reduced mod 12.  `specIntervalSuffix` is the label table
transcribed from the specification. -/
theorem twoNoteIntervalNaming (a b : Nat) (key : KeySignature) (h : a < b) :
    analyzeNotes [a, b] key =
      midiNoteToNoteNameInKey a key ++
        specIntervalSuffix ((b : Int) - (a : Int)) ∧
    (12 < (b : Int) - (a : Int) →
      specIntervalSuffix ((b : Int) - (a : Int)) =
        " +" ++ toString ((b : Int) - (a : Int)) ++ " semitones") := by
  constructor
  · have hsort : ([a, b] : List Nat).insertionSort (· ≤ ·) = [a, b] := by
      simp [List.insertionSort, List.orderedInsert, le_of_lt h]
    unfold analyzeNotes
    rw [if_neg (by simp)]
    dsimp only
    rw [hsort]
    rw [show ([a, b] : List Nat).length = 2 from rfl]
    rw [if_neg (by decide : ¬(2 = 1)), if_pos rfl]
    show analyzeInterval a b key = _
    exact analyzeInterval_eq_spec a b key
  · exact fun h12 => specIntervalSuffix_default _ h12

/-- Witness for C9 at the two-note input 60, 62 in C Major. -/
theorem twoNoteIntervalNaming_witness :
    analyzeNotes [60, 62] cMajorKey = "C4 major 2nd" :=
  ((twoNoteIntervalNaming 60 62 cMajorKey (by decide)).1).trans (by decide)

/-- Claim C10: when no candidate root of an input of at least three notes
matches any library pattern, analyzeChord returns normally with chordName
Cluster (N notes) for N the input cardinality, romanNumeral ? and empty
functionName. -/
theorem unmatchedChordClusterFallback (notes : List Nat) (key : KeySignature)
    (_h3 : 3 ≤ notes.length)
    (hnm : ∀ r ∈ notes, matchChordPattern (intervalsFor notes r) = "") :
    (analyzeChord notes key).chordName =
      "Cluster (" ++ toString notes.length ++ " notes)" ∧
    (analyzeChord notes key).romanNumeral = "?" ∧
    (analyzeChord notes key).functionName = "" := by
  have hroot : findChordRoot notes notes = none :=
    findChordRoot_eq_none notes notes hnm
  have hbest : (findBestChordInterpretation notes key).quality = "" := by
    unfold findBestChordInterpretation
    rw [hroot]
  simp [analyzeChord, hbest]

/-- Witness for C10 at the chromatic cluster 60, 61, 62. -/
theorem unmatchedChordClusterFallback_witness :
    (analyzeChord [60, 61, 62] cMajorKey).chordName =
      "Cluster (" ++ toString ([60, 61, 62] : List Nat).length ++ " notes)" ∧
    (analyzeChord [60, 61, 62] cMajorKey).romanNumeral = "?" ∧
    (analyzeChord [60, 61, 62] cMajorKey).functionName = "" :=
  unmatchedChordClusterFallback [60, 61, 62] cMajorKey (by decide) (by decide)

end Music
